import Mathlib

/-
Verification of the usage metering, quota enforcement and billing
reconciliation subsystem of the gptx-api worker.

The embedding below translates the TypeScript sources:
  * association lists (`JMap`) model plain JS objects used as string-keyed maps;
  * JS `number` fields that always hold integers are modelled as `Int`;
  * a JS field that can become `NaN` (the `usage_text_since_last_record`
    accumulator, which the code updates with `+=` even when the key is
    absent) is modelled as `Option Int`, with `none` standing for `NaN`;
  * functions that can throw a runtime `TypeError` return `Option`,
    with `none` standing for the thrown exception;
  * the Cloudflare KV store and Stripe calls are side effects; the pure
    state transformations they persist are what is modelled.
-/

/-- Association list keyed by strings, the model of a plain JS object. -/
abbrev JMap (α : Type) := List (String × α)

/-- First-match lookup, the model of JS property access `o[k]`
(`none` models `undefined`). -/
def lookupA {α : Type} : JMap α → String → Option α
  | [], _ => none
  | (k, v) :: rest, key => if k = key then some v else lookupA rest key

/-- Property write `o[k] = v`: replaces the first binding of `k` in place,
or appends a new binding at the end, exactly as JS object insertion order
behaves. -/
def setA {α : Type} : JMap α → String → α → JMap α
  | [], key, v => [(key, v)]
  | (k, w) :: rest, key, v =>
    if k = key then (key, v) :: rest else (k, w) :: setA rest key v

theorem lookupA_setA_self {α : Type} (l : JMap α) (k : String) (v : α) :
    lookupA (setA l k v) k = some v := by
  induction l with
  | nil => simp [setA, lookupA]
  | cons hd tl ih =>
    obtain ⟨k0, w⟩ := hd
    by_cases h : k0 = k
    · simp [setA, lookupA, h]
    · simp [setA, lookupA, h, ih]

theorem setA_setA {α : Type} (l : JMap α) (k : String) (v w : α) :
    setA (setA l k v) k w = setA l k w := by
  induction l with
  | nil => simp [setA]
  | cons hd tl ih =>
    obtain ⟨k0, u⟩ := hd
    by_cases h : k0 = k
    · simp [setA, h]
    · simp [setA, h, ih]

theorem setA_self {α : Type} (l : JMap α) (k : String) (v : α)
    (h : lookupA l k = some v) : setA l k v = l := by
  induction l with
  | nil => simp [lookupA] at h
  | cons hd tl ih =>
    obtain ⟨k0, w⟩ := hd
    by_cases hk : k0 = k
    · subst hk
      simp [lookupA] at h
      simp [setA, h]
    · simp [lookupA, hk] at h
      simp [setA, hk, ih h]

theorem lookupA_map {α β : Type} (l : JMap α) (f : α → β) (k : String) :
    lookupA (l.map (fun p => (p.1, f p.2))) k = (lookupA l k).map f := by
  induction l with
  | nil => simp [lookupA]
  | cons hd tl ih =>
    obtain ⟨k0, v⟩ := hd
    by_cases h : k0 = k
    · simp [lookupA, h]
    · simp [lookupA, h, ih]

/-- Per-window limit object `{ minute: number | null, day: number | null }`
from `constants.ts` (`null` means unlimited). -/
structure WindowLimit where
  minute : Option Int
  day : Option Int
deriving DecidableEq

/-- Per-window usage counters `{ minute: number, day: number }`. -/
structure WindowUsed where
  minute : Int
  day : Int
deriving DecidableEq

/-- The user record produced by `getDefaultUserData` in `util.ts`
(the fields the metering subsystem reads and writes). -/
structure UserData where
  active : Bool
  invite_code : String
  stripe_customer_id : String
  allow_retrieval_tool : Bool
  limits : JMap WindowLimit
  image_limits : JMap WindowLimit
  used : JMap WindowUsed
  image_used : JMap WindowUsed
  usage_text_since_last_record : JMap (Option Int)
  usage_image_since_last_record : JMap (Option Int)
  default_instruction : String
deriving DecidableEq

/-- `incrementUsage` from `router.ts` (lines 100-111): no-op when `count`
is `0` (JS `if (count)`) or when `used[model]` is `undefined`; otherwise
adds `count` to both windows of `used[model]` and to
`usage_text_since_last_record[model]`.  The `+=` on a missing accumulator
key yields `NaN`, modelled by `none`.  The KV persist and the dirty-set
inserts are side effects that do not change the record. -/
def incrementUsage (model : String) (count : Int) (userData : UserData) : UserData :=
  if count = 0 then userData
  else
    match lookupA userData.used model with
    | none => userData
    | some u =>
      { userData with
        used := setA userData.used model
          { minute := u.minute + count, day := u.day + count },
        usage_text_since_last_record :=
          setA userData.usage_text_since_last_record model
            (match lookupA userData.usage_text_since_last_record model with
             | some (some t) => some (t + count)
             | _ => none) }

/-- The window loop of `checkModelUsage` (`router.ts` lines 125-132):
for each of `minute`, `day`, a `null` limit is skipped, and
`used[model][type] >= limit` denies.  Accessing `used[model][type]` when
`used[model]` is `undefined` throws, modelled by the outer `none`. -/
def checkWindows (lim : WindowLimit) (usedEntry : Option WindowUsed) : Option Bool :=
  match lim.minute with
  | some l =>
    match usedEntry with
    | none => none
    | some u =>
      if u.minute ≥ l then some false
      else
        match lim.day with
        | some ld => if u.day ≥ ld then some false else some true
        | none => some true
  | none =>
    match lim.day with
    | some ld =>
      match usedEntry with
      | none => none
      | some u => if u.day ≥ ld then some false else some true
    | none => some true

/-- `checkModelUsage` from `router.ts` (lines 122-137): denies when the
limit object is absent, then runs the window loop; when allowed and
`incrementUsageBy` is truthy it pre-charges via `incrementUsage`.
Returns the decision together with the (possibly pre-charged) record;
`none` models the thrown `TypeError`. -/
def checkModelUsage (userData : UserData) (model : String)
    (incrementUsageBy : Int) : Option (Bool × UserData) :=
  match lookupA userData.limits model with
  | none => some (false, userData)
  | some lim =>
    match checkWindows lim (lookupA userData.used model) with
    | none => none
    | some false => some (false, userData)
    | some true =>
      some (true,
        if incrementUsageBy = 0 then userData
        else incrementUsage model incrementUsageBy userData)

/-- `getRemainingModelUsageByData` from `router.ts` (lines 75-95):
`0` for missing/inactive/billing-less users and for an absent limit
object; a zero limit on any window short-circuits to `0`; otherwise the
minimum over configured windows of `max(0, limit - used)`; `none` (JS
`null`) when no window is configured.  The outer `none` models the
`TypeError` thrown when a configured window reads an absent
`used[model]`. -/
def getRemainingModelUsageByData (userData : Option UserData) (model : String) :
    Option (Option Int) :=
  match userData with
  | none => some (some 0)
  | some d =>
    if d.active = false ∨ d.stripe_customer_id = "" then some (some 0)
    else
      match lookupA d.limits model with
      | none => some (some 0)
      | some lim =>
        match lim.minute with
        | some l =>
          if l = 0 then some (some 0)
          else
            match lookupA d.used model with
            | none => none
            | some u =>
              let c1 := max 0 (l - u.minute)
              match lim.day with
              | some ld =>
                if ld = 0 then some (some 0)
                else some (some (min c1 (max 0 (ld - u.day))))
              | none => some (some c1)
        | none =>
          match lim.day with
          | some ld =>
            if ld = 0 then some (some 0)
            else
              match lookupA d.used model with
              | none => none
              | some u => some (some (max 0 (ld - u.day)))
          | none => some none

/-- The admission sequence of the `/api/generate` route (`router.ts`
lines 184-194), the spec's admission decision: 403 when the user is
missing, inactive or has no billing identity; 429 when `checkModelUsage`
(with no pre-charge) denies; 429 when the remaining capacity is non-null
and not positive; otherwise allowed, returning the remaining capacity. -/
def admission (userData : Option UserData) (model : String) :
    Option (Bool × Option Int) :=
  match userData with
  | none => some (false, none)
  | some d =>
    if d.active = false ∨ d.stripe_customer_id = "" then some (false, none)
    else
      match checkModelUsage d model 0 with
      | none => none
      | some (false, _) => some (false, none)
      | some (true, _) =>
        match getRemainingModelUsageByData (some d) model with
        | none => none
        | some remaining =>
          match remaining with
          | some r => if r ≤ 0 then some (false, some r) else some (true, some r)
          | none => some (true, none)

/-- Minute window reset (`index.ts` lines 68-74): zero the `minute`
counter of every model in `used` and `image_used`; nothing else of the
record is touched. -/
def resetMinute (d : UserData) : UserData :=
  { d with
    used := d.used.map (fun p => (p.1, { p.2 with minute := 0 })),
    image_used := d.image_used.map (fun p => (p.1, { p.2 with minute := 0 })) }

/-- Day window reset (`index.ts` lines 79-85): zero the `day` counter of
every model in `used` and `image_used`. -/
def resetDay (d : UserData) : UserData :=
  { d with
    used := d.used.map (fun p => (p.1, { p.2 with day := 0 })),
    image_used := d.image_used.map (fun p => (p.1, { p.2 with day := 0 })) }

/-- `addString` from `router.ts` (lines 28-34): idempotent append of a
value to a KV-persisted string list (`if (!list.includes(value)) push`). -/
def addString (list : List String) (value : String) : List String :=
  if value ∈ list then list else list ++ [value]

/-- `addTrackedRuns` from `router.ts` (lines 36-37): enqueue of a pending
run, keyed by the composite string `user|thread|run|usage`. -/
def addTrackedRuns (user_id thread_id run_id : String) (usage : Int)
    (list : List String) : List String :=
  addString list (user_id ++ "|" ++ thread_id ++ "|" ++ run_id ++ "|" ++ toString usage)

/-- Outcome of polling one tracked run inside the 5-minute sweep
(`index.ts` lines 98-128): the run completed (with the computed cost),
the run is not done yet, or the poll (or any step of the completed-run
processing) threw, landing in the `catch` that only logs. -/
inductive RunStatus where
  | completed (cost : Int)
  | notDone
  | errored
deriving DecidableEq

/-- The `notDoneRuns` list produced by the tracked-run sweep
(`index.ts` lines 93-130): an entry is pushed back only when its poll
reports a not-completed status; a completed entry is consumed, and an
entry whose processing threw is only logged by the `catch` block.  The
resulting list is what line 130 writes back as the pending-run dirty
set. -/
def runSweep (status : String → RunStatus) : List String → List String
  | [] => []
  | run :: rest =>
    match status run with
    | RunStatus.notDone => run :: runSweep status rest
    | _ => runSweep status rest

/-- A Stripe subscription item as read by `getSubscriptionItem`
(`util.ts`): only its id and the `price.lookup_key` field matter. -/
structure SubItem where
  id : String
  lookup_key : Option String
deriving DecidableEq

/-- The JS `split(',')` used on a price lookup key, written out over the
character list of the string (`'a,,b'.split(',') = ['a','','b']`,
`''.split(',') = ['']`). -/
def splitCommaChars : List Char → List (List Char)
  | [] => [[]]
  | c :: rest =>
    if c = ',' then [] :: splitCommaChars rest
    else
      match splitCommaChars rest with
      | g :: gs => (c :: g) :: gs
      | [] => [[c]]

/-- `lookup_key.split(',')` as a list of strings. -/
def splitComma (s : String) : List String :=
  (splitCommaChars s.data).map (fun cs => String.mk cs)

/-- `getSubscriptionItem` from `util.ts` (lines 97-109): scan every item
of every subscription; skip items whose price lookup key is falsy
(absent or the empty string); return the first item whose comma-split
lookup key list contains the requested key. -/
def findSubItemInItems : List SubItem → String → Option SubItem
  | [], _ => none
  | it :: rest, key =>
    match it.lookup_key with
    | none => findSubItemInItems rest key
    | some s =>
      if s = "" then findSubItemInItems rest key
      else if key ∈ splitComma s then some it
      else findSubItemInItems rest key

/-- Outer loop of `getSubscriptionItem` over `subscriptions.data`, each
subscription contributing its `items.data` list. -/
def getSubscriptionItem : List (List SubItem) → String → Option SubItem
  | [], _ => none
  | items :: rest, key =>
    match findSubItemInItems items key with
    | some it => some it
    | none => getSubscriptionItem rest key

/-- One billing-flush step for one model accumulator (`index.ts` lines
141-149): `quantity = Math.floor(used / 1000)`; if `quantity < 1` skip;
otherwise, if a matching subscription item exists, report `quantity` and
keep `used % 1000`.  On the executed branch `used >= 1000`, where
`Int` Euclidean `/` and `%` agree with JS `Math.floor` and `%=`.
Returns the reported quantity (if any) and the new accumulator value. -/
def flushStep (model : String) (subs : List (List SubItem)) (acc : Int) :
    Option Int × Int :=
  let quantity := acc / 1000
  if quantity < 1 then (none, acc)
  else
    match getSubscriptionItem subs model with
    | some _ => (some quantity, acc % 1000)
    | none => (none, acc)

/-- The operations that touch one `usage_text_since_last_record[model]`
accumulator over its lifetime: an `incrementUsage` adding `a`, or a
30-minute billing flush run against the subscription list seen at that
moment. -/
inductive BillOp where
  | inc (a : Int)
  | flush (subs : List (List SubItem))

/-- State of one accumulator: its current value and the running total of
quantities already reported to Stripe (an observer of the
`createUsageRecord` calls). -/
structure BillSt where
  acc : Int
  reportedTotal : Int
deriving DecidableEq

/-- Applying one operation to the accumulator state. -/
def applyBillOp (model : String) (st : BillSt) : BillOp → BillSt
  | BillOp.inc a => { acc := st.acc + a, reportedTotal := st.reportedTotal }
  | BillOp.flush subs =>
    match flushStep model subs st.acc with
    | (some q, a2) => { acc := a2, reportedTotal := st.reportedTotal + q }
    | (none, a2) => { acc := a2, reportedTotal := st.reportedTotal }

/-- Total amount ever added to the accumulator by a list of operations. -/
def totalInc : List BillOp → Int
  | [] => 0
  | BillOp.inc a :: rest => a + totalInc rest
  | BillOp.flush _ :: rest => totalInc rest

/-- JSON-like JS values, the domain of `mergeDeep` and
`calculateLength`. -/
inductive Json where
  | null : Json
  | bool : Bool → Json
  | num : Int → Json
  | str : String → Json
  | arr : List Json → Json
  | obj : List (String × Json) → Json

/-- `isObject` from `util.ts` (line 39): truthy, of type object, and not
an array — on JSON values exactly the object constructor (`null` is
falsy, arrays are excluded). -/
def isObject : Json → Bool
  | Json.obj _ => true
  | _ => false

/-- JS truthiness of a JSON value. -/
def truthy : Json → Bool
  | Json.null => false
  | Json.bool b => b
  | Json.num n => n != 0
  | Json.str s => s != ""
  | Json.arr _ => true
  | Json.obj _ => true

/-- Property lookup on raw JSON object fields. -/
def lookupF : List (String × Json) → String → Option Json
  | [], _ => none
  | (k, v) :: rest, key => if k = key then some v else lookupF rest key

/-- Property write on raw JSON object fields (replace in place or append,
as JS objects do). -/
def setKey : List (String × Json) → String → Json → List (String × Json)
  | [], key, v => [(key, v)]
  | (k, w) :: rest, key, v =>
    if k = key then (key, v) :: rest else (k, w) :: setKey rest key v

/-- The slot used as the recursive merge target for an object-valued
source property (`util.ts` line 50): the current target value, except
that a falsy current value (including an absent key) is replaced by a
fresh empty object before merging. -/
def fixT : Option Json → Json
  | some tv => if truthy tv then tv else Json.obj []
  | none => Json.obj []

mutual
/-- `mergeDeep` from `util.ts` (lines 41-59) with a single source: when
both target and source are objects, fold the source properties into the
target; otherwise the target is returned unchanged. -/
def mergeDeep : Json → Json → Json
  | Json.obj tf, Json.obj sf => Json.obj (mergeFields tf sf)
  | t, _ => t
termination_by t s => sizeOf s

/-- The `for (const key in source)` body of `mergeDeep` (`util.ts` lines
48-55): an object-valued source property is merged recursively into the
(possibly freshly created) target slot; any other source value
overwrites the target property via `Object.assign`. -/
def mergeFields : List (String × Json) → List (String × Json) → List (String × Json)
  | tf, [] => tf
  | tf, (k, sv) :: rest =>
    if isObject sv then
      mergeFields (setKey tf k (mergeDeep (fixT (lookupF tf k)) sv)) rest
    else
      mergeFields (setKey tf k sv) rest
termination_by tf l => sizeOf l
end

/-- Descend through nested JSON objects along a list of keys; a missing
key or a non-object along the way yields `none`. -/
def getPath : Json → List String → Option Json
  | v, [] => some v
  | Json.obj fs, k :: rest =>
    match lookupF fs k with
    | some v => getPath v rest
    | none => none
  | _, _ :: _ => none

/-- Key of a field list occurs? (helper for key uniqueness). -/
def hasKey : List (String × Json) → String → Bool
  | [], _ => false
  | (k, _) :: rest, key => k = key || hasKey rest key

/-- No duplicate keys in a field list. -/
def keysNodup : List (String × Json) → Bool
  | [] => true
  | (k, _) :: rest => !(hasKey rest k) && keysNodup rest

mutual
/-- Well-formed JSON value: every object in the tree has pairwise
distinct keys (true of anything produced by `JSON.parse`). -/
def wfJson : Json → Bool
  | Json.obj fs => keysNodup fs && wfFields fs
  | _ => true
termination_by v => sizeOf v

/-- All field values of an object are well-formed. -/
def wfFields : List (String × Json) → Bool
  | [] => true
  | (_, v) :: rest => wfJson v && wfFields rest
termination_by l => sizeOf l
end

mutual
/-- Shape compatibility of a stored value with a default skeleton: for
every stored property that also exists in the skeleton, an object-valued
skeleton entry is stored as an object, an object-valued stored entry
meets an object or falsy skeleton entry, and object pairs are
recursively compatible.  A record serialized from the default skeleton
shape (with any subset of its keys, plus arbitrary extra keys) satisfies
this. -/
def compat : Json → Json → Bool
  | Json.obj tf, Json.obj sf => compatFields tf sf
  | _, _ => true
termination_by t s => sizeOf s

/-- Per-property compatibility check over the stored fields. -/
def compatFields : List (String × Json) → List (String × Json) → Bool
  | _, [] => true
  | tf, (k, sv) :: rest =>
    (match lookupF tf k with
     | none => true
     | some tv =>
       (!(isObject tv) || isObject sv)
         && (!(isObject sv) || (isObject tv || !(truthy tv)))
         && compat tv sv)
      && compatFields tf rest
termination_by tf l => sizeOf l
end

theorem lookupF_sizeOf {l : List (String × Json)} {k : String} {v : Json}
    (h : lookupF l k = some v) : sizeOf v < sizeOf l := by
  induction l with
  | nil => simp [lookupF] at h
  | cons hd tl ih =>
    obtain ⟨k0, v0⟩ := hd
    by_cases hk : k0 = k
    · simp only [lookupF, hk, if_pos] at h
      cases h
      simp only [List.cons.sizeOf_spec, Prod.mk.sizeOf_spec]
      omega
    · simp only [lookupF, hk, if_neg, not_false_iff] at h
      have := ih h
      simp only [List.cons.sizeOf_spec]
      omega

mutual
/-- `calculateLength` from `util.ts` (lines 111-133).  A string counts
its length; an array maps `calculateLength` over its elements and
`reduce`s with `+` and no initial value — which throws on an empty
array, modelled by `none`; an object is probed for `text`, `value`,
`image_file` and `content` in that order; `null` has `typeof 'object'`
so `value.text` throws; numbers and booleans fall to the final
`return 0`. -/
def calculateLength : Json → Option Int
  | Json.str s => some (s.length : Int)
  | Json.arr xs =>
    match calcList xs with
    | none => none
    | some [] => none
    | some (v :: vs) => some (vs.foldl (fun a b => a + b) v)
  | Json.obj fs =>
    match h1 : lookupF fs "text" with
    | some (Json.str s) => some (s.length : Int)
    | some (Json.obj tfs) => calculateLength (Json.obj tfs)
    | some (Json.arr txs) => calculateLength (Json.arr txs)
    | some Json.null => none
    | some (Json.num _) => calcObjRest fs
    | some (Json.bool _) => calcObjRest fs
    | none => calcObjRest fs
  | Json.null => none
  | Json.num _ => some 0
  | Json.bool _ => some 0
termination_by v => sizeOf v
decreasing_by
all_goals simp_wf
all_goals first
  | omega
  | (have hsz := lookupF_sizeOf h1
     simp only [Json.obj.sizeOf_spec, Json.arr.sizeOf_spec] at hsz
     omega)

/-- `value.map(e => calculateLength(e))` with exception propagation. -/
def calcList : List Json → Option (List Int)
  | [] => some []
  | x :: xs =>
    match calculateLength x, calcList xs with
    | some v, some vs => some (v :: vs)
    | _, _ => none
termination_by xs => sizeOf xs

/-- The `value`, `image_file` and `content` probes of the object branch
of `calculateLength`. -/
def calcObjRest (fs : List (String × Json)) : Option Int :=
  match lookupF fs "value" with
  | some (Json.str s) => some (s.length : Int)
  | _ =>
    match lookupF fs "image_file" with
    | some v =>
      if truthy v then some 1000
      else
        match h2 : lookupF fs "content" with
        | some w => if truthy w then calculateLength w else some 0
        | none => some 0
    | none =>
      match h3 : lookupF fs "content" with
      | some w => if truthy w then calculateLength w else some 0
      | none => some 0
termination_by sizeOf fs
decreasing_by
all_goals simp_wf
all_goals first
  | omega
  | (have hsz := lookupF_sizeOf h2
     omega)
  | (have hsz := lookupF_sizeOf h3
     omega)
end

/-- The field list of the object produced by `getDefaultUserData` in
`util.ts` (lines 75-89): the structural default record for every known
text and image model, with the system default limit tables from
`constants.ts`.  `Date.now()` is passed in as `now`. -/
def defaultUserFields (now : Int) : List (String × Json) :=
  [
    ("active", Json.bool false),
    ("invite_code", Json.str ""),
    ("stripe_customer_id", Json.str ""),
    ("allow_retrieval_tool", Json.bool true),
    ("limits", Json.obj [
      ("gpt-3.5-turbo", Json.obj [("minute", Json.num 10000), ("day", Json.null)]),
      ("gpt-3.5-turbo-16k", Json.obj [("minute", Json.num 10000), ("day", Json.null)]),
      ("gpt-4", Json.obj [("minute", Json.num 2500), ("day", Json.null)]),
      ("gpt-4-1106-preview", Json.obj [("minute", Json.num 4000), ("day", Json.num 25000)]),
      ("gpt-4-vision-preview", Json.obj [("minute", Json.num 2500), ("day", Json.num 10000)])]),
    ("image_limits", Json.obj [
      ("dall-e-2", Json.obj [("minute", Json.num 0), ("day", Json.num 0)]),
      ("dall-e-3", Json.obj [("minute", Json.num 0), ("day", Json.num 0)])]),
    ("used", Json.obj [
      ("gpt-3.5-turbo", Json.obj [("minute", Json.num 0), ("day", Json.num 0)]),
      ("gpt-3.5-turbo-16k", Json.obj [("minute", Json.num 0), ("day", Json.num 0)]),
      ("gpt-4", Json.obj [("minute", Json.num 0), ("day", Json.num 0)]),
      ("gpt-4-1106-preview", Json.obj [("minute", Json.num 0), ("day", Json.num 0)]),
      ("gpt-4-vision-preview", Json.obj [("minute", Json.num 0), ("day", Json.num 0)]),
      ("file", Json.obj [("minute", Json.num 0), ("day", Json.num 0)])]),
    ("image_used", Json.obj [
      ("dall-e-3", Json.obj [("minute", Json.num 0), ("day", Json.num 0)]),
      ("dall-e-2", Json.obj [("minute", Json.num 0), ("day", Json.num 0)])]),
    ("usage_text_since_last_record", Json.obj [
      ("gpt-3.5-turbo", Json.num 0),
      ("gpt-3.5-turbo-16k", Json.num 0),
      ("gpt-4", Json.num 0),
      ("gpt-4-1106-preview", Json.num 0),
      ("gpt-4-vision-preview", Json.num 0),
      ("file", Json.num 0)]),
    ("usage_image_since_last_record", Json.obj [
      ("dall-e-3", Json.num 0),
      ("dall-e-2", Json.num 0)]),
    ("default_instruction", Json.str ""),
    ("created_at", Json.num now)]

/-- The default record as a JSON value. -/
def getDefaultUserData (now : Int) : Json :=
  Json.obj (defaultUserFields now)

/-- `getUserDataById` from `util.ts` (lines 91-95): when the Quota Store
has no record for the user, return the structural default record;
otherwise deep-merge the default skeleton under the stored record
(`mergeDeep(getDefaultUserData(), data)`). -/
def getUserDataById (now : Int) : Option Json → Json
  | none => getDefaultUserData now
  | some data => mergeDeep (getDefaultUserData now) data

theorem lookupF_setKey_self (l : List (String × Json)) (k : String) (v : Json) :
    lookupF (setKey l k v) k = some v := by
  induction l with
  | nil => simp [setKey, lookupF]
  | cons hd tl ih =>
    obtain ⟨k0, w⟩ := hd
    by_cases h : k0 = k
    · simp [setKey, lookupF, h]
    · simp [setKey, lookupF, h, ih]

theorem lookupF_setKey_other (l : List (String × Json)) (k1 k2 : String) (v : Json)
    (h : k1 ≠ k2) : lookupF (setKey l k1 v) k2 = lookupF l k2 := by
  induction l with
  | nil => simp [setKey, lookupF, h]
  | cons hd tl ih =>
    obtain ⟨k0, w⟩ := hd
    by_cases hk : k0 = k1
    · subst hk
      simp [setKey, lookupF, h]
    · simp only [setKey, hk, if_neg, not_false_iff, lookupF]
      by_cases hk2 : k0 = k2
      · simp [hk2, lookupF]
      · simp [hk2, lookupF, ih]

theorem lookupF_none_of_hasKey_false {l : List (String × Json)} {k : String}
    (h : hasKey l k = false) : lookupF l k = none := by
  induction l with
  | nil => simp [lookupF]
  | cons hd tl ih =>
    obtain ⟨k0, w⟩ := hd
    simp only [hasKey, Bool.or_eq_false_iff, decide_eq_false_iff_not] at h
    simp [lookupF, h.1, ih h.2]

theorem wfFields_lookup {l : List (String × Json)} {k : String} {v : Json}
    (hwf : wfFields l = true) (h : lookupF l k = some v) : wfJson v = true := by
  induction l with
  | nil => simp [lookupF] at h
  | cons hd tl ih =>
    obtain ⟨k0, v0⟩ := hd
    rw [wfFields] at hwf
    simp only [Bool.and_eq_true] at hwf
    by_cases hk : k0 = k
    · simp only [lookupF, hk, if_pos] at h
      cases h
      exact hwf.1
    · simp only [lookupF, hk, if_neg, not_false_iff] at h
      exact ih hwf.2 h

theorem compatFields_nil (l : List (String × Json)) : compatFields [] l = true := by
  induction l with
  | nil => rw [compatFields]
  | cons hd tl ih =>
    obtain ⟨k, sv⟩ := hd
    rw [compatFields]
    simp [lookupF, ih]

theorem compatFields_lookup {tf sf : List (String × Json)} {k : String}
    {sv tv : Json} (hc : compatFields tf sf = true) (hs : lookupF sf k = some sv)
    (ht : lookupF tf k = some tv) :
    (isObject tv = true → isObject sv = true)
      ∧ (isObject sv = true → (isObject tv = true ∨ truthy tv = false))
      ∧ compat tv sv = true := by
  induction sf with
  | nil => simp [lookupF] at hs
  | cons hd tl ih =>
    obtain ⟨k0, sv0⟩ := hd
    rw [compatFields] at hc
    simp only [Bool.and_eq_true] at hc
    by_cases hk : k0 = k
    · subst hk
      simp only [lookupF, if_pos] at hs
      cases hs
      rw [ht] at hc
      have h1 := hc.1
      simp only [Bool.and_eq_true, Bool.or_eq_true, Bool.not_eq_true'] at h1
      refine ⟨?_, ?_, h1.2⟩
      · intro hto
        rcases h1.1.1 with h | h
        · rw [hto] at h
          cases h
        · exact h
      · intro hso
        rcases h1.1.2 with h | h
        · rw [hso] at h
          cases h
        · rcases h with h | h
          · exact Or.inl h
          · exact Or.inr h
    · simp only [lookupF, hk, if_neg, not_false_iff] at hs
      exact ih hc.2 hs

theorem mergeFields_lookup (sf : List (String × Json)) :
    ∀ (tf : List (String × Json)) (k : String), keysNodup sf = true →
      lookupF (mergeFields tf sf) k =
        (match lookupF sf k with
         | none => lookupF tf k
         | some sv =>
           if isObject sv then some (mergeDeep (fixT (lookupF tf k)) sv)
           else some sv) := by
  induction sf with
  | nil =>
    intro tf k _
    simp [mergeFields, lookupF]
  | cons hd rest ih =>
    intro tf k hnd
    obtain ⟨k0, sv0⟩ := hd
    rw [keysNodup] at hnd
    simp only [Bool.and_eq_true, Bool.not_eq_true'] at hnd
    by_cases ho : isObject sv0 = true
    · rw [show mergeFields tf ((k0, sv0) :: rest)
          = mergeFields (setKey tf k0 (mergeDeep (fixT (lookupF tf k0)) sv0)) rest by
        rw [mergeFields]; simp [ho]]
      rw [ih _ k hnd.2]
      by_cases hk : k0 = k
      · subst hk
        rw [lookupF_none_of_hasKey_false hnd.1]
        simp [lookupF, lookupF_setKey_self, ho]
      · simp only [lookupF, hk, if_neg, not_false_iff]
        rw [lookupF_setKey_other _ _ _ _ hk]
    · rw [show mergeFields tf ((k0, sv0) :: rest)
          = mergeFields (setKey tf k0 sv0) rest by
        rw [mergeFields]; simp [ho]]
      rw [ih _ k hnd.2]
      by_cases hk : k0 = k
      · subst hk
        rw [lookupF_none_of_hasKey_false hnd.1]
        simp [lookupF, lookupF_setKey_self, ho]
      · simp only [lookupF, hk, if_neg, not_false_iff]
        rw [lookupF_setKey_other _ _ _ _ hk]

theorem isObject_obj {v : Json} (h : isObject v = true) :
    ∃ f, v = Json.obj f := by
  cases v with
  | obj f => exact ⟨f, rfl⟩
  | null => simp [isObject] at h
  | bool b => simp [isObject] at h
  | num n => simp [isObject] at h
  | str s => simp [isObject] at h
  | arr xs => simp [isObject] at h

theorem getPath_nil (v : Json) : getPath v [] = some v := by
  cases v <;> rfl

theorem getPath_cons_obj (fs : List (String × Json)) (k : String) (ps : List String) :
    getPath (Json.obj fs) (k :: ps)
      = (match lookupF fs k with
         | some v => getPath v ps
         | none => none) := rfl

theorem getPath_cons_ne_obj {v : Json} (h : isObject v = false)
    (k : String) (ps : List String) : getPath v (k :: ps) = none := by
  cases v with
  | obj f => simp [isObject] at h
  | null => rfl
  | bool b => rfl
  | num n => rfl
  | str s => rfl
  | arr xs => rfl

theorem fixT_obj_of_compat {tf sf : List (String × Json)} {k : String}
    {svf : List (String × Json)} (hcf : compatFields tf sf = true)
    (hsv : lookupF sf k = some (Json.obj svf)) :
    ∃ tvf, fixT (lookupF tf k) = Json.obj tvf
      ∧ compat (Json.obj tvf) (Json.obj svf) = true := by
  cases htk : lookupF tf k with
  | none =>
    refine ⟨[], by simp [fixT], ?_⟩
    rw [compat]
    exact compatFields_nil _
  | some tv =>
    have hcnd := compatFields_lookup hcf hsv htk
    rcases hcnd.2.1 rfl with hto | htf
    · obtain ⟨tvf, rfl⟩ := isObject_obj hto
      refine ⟨tvf, by simp [fixT, truthy], ?_⟩
      exact hcnd.2.2
    · refine ⟨[], by simp [fixT, htf], ?_⟩
      rw [compat]
      exact compatFields_nil _

theorem mergePreserve (sf : List (String × Json)) :
    ∀ (tf : List (String × Json)),
      wfJson (Json.obj sf) = true → compat (Json.obj tf) (Json.obj sf) = true →
      ((∀ p v, getPath (Json.obj sf) p = some v → isObject v = false →
          getPath (mergeDeep (Json.obj tf) (Json.obj sf)) p = some v)
        ∧ (∀ p v, getPath (Json.obj sf) p = some v → isObject v = true →
          ∃ w, getPath (mergeDeep (Json.obj tf) (Json.obj sf)) p = some w
            ∧ isObject w = true)
        ∧ (∀ p v, getPath (Json.obj tf) p = some v →
          getPath (Json.obj sf) p = none →
          getPath (mergeDeep (Json.obj tf) (Json.obj sf)) p = some v)) := by
  intro tf hwf hc
  rw [wfJson] at hwf
  simp only [Bool.and_eq_true] at hwf
  obtain ⟨hnd, hwff⟩ := hwf
  have hcf : compatFields tf sf = true := by rw [compat] at hc; exact hc
  have hmd : mergeDeep (Json.obj tf) (Json.obj sf) = Json.obj (mergeFields tf sf) := by
    rw [mergeDeep]
  have hL1 := fun k => mergeFields_lookup sf tf k hnd
  refine ⟨?_, ?_, ?_⟩
  · -- stored non-object values are preserved at their paths
    intro p v hget hvno
    cases p with
    | nil =>
      have hv : Json.obj sf = v := by
        have h0 : some (Json.obj sf) = some v := hget
        cases h0
        rfl
      rw [← hv] at hvno
      simp [isObject] at hvno
    | cons k ps =>
      rw [hmd]
      cases hsv : lookupF sf k with
      | none =>
        rw [getPath_cons_obj, hsv] at hget
        cases hget
      | some sv =>
        have hget2 : getPath sv ps = some v := by
          rw [getPath_cons_obj, hsv] at hget
          exact hget
        by_cases ho : isObject sv = true
        · obtain ⟨svf, rfl⟩ := isObject_obj ho
          obtain ⟨tvf, htvf, hcsv⟩ := fixT_obj_of_compat hcf hsv
          have hwsv : wfJson (Json.obj svf) = true := wfFields_lookup hwff hsv
          have hszlt : sizeOf svf < sizeOf sf := by
            have := lookupF_sizeOf hsv
            simp only [Json.obj.sizeOf_spec] at this
            omega
          have hrec := mergePreserve svf tvf hwsv hcsv
          have hL2 : lookupF (mergeFields tf sf) k
              = some (mergeDeep (Json.obj tvf) (Json.obj svf)) := by
            rw [hL1 k, hsv, htvf]
            simp [isObject]
          have hstep : getPath (Json.obj (mergeFields tf sf)) (k :: ps)
              = getPath (mergeDeep (Json.obj tvf) (Json.obj svf)) ps := by
            rw [getPath_cons_obj, hL2]
          rw [hstep]
          exact hrec.1 ps v hget2 hvno
        · cases ps with
          | nil =>
            rw [getPath_nil] at hget2
            cases hget2
            have hL2 : lookupF (mergeFields tf sf) k = some v := by
              rw [hL1 k, hsv]
              simp [ho]
            rw [getPath_cons_obj, hL2]
            exact getPath_nil v
          | cons p1 ps1 =>
            rw [getPath_cons_ne_obj (by simpa using ho) p1 ps1] at hget2
            cases hget2
  · -- stored object values stay objects at their paths
    intro p v hget hvo
    cases p with
    | nil =>
      refine ⟨Json.obj (mergeFields tf sf), ?_, rfl⟩
      rw [hmd]
      rfl
    | cons k ps =>
      rw [hmd]
      cases hsv : lookupF sf k with
      | none =>
        rw [getPath_cons_obj, hsv] at hget
        cases hget
      | some sv =>
        have hget2 : getPath sv ps = some v := by
          rw [getPath_cons_obj, hsv] at hget
          exact hget
        by_cases ho : isObject sv = true
        · obtain ⟨svf, rfl⟩ := isObject_obj ho
          obtain ⟨tvf, htvf, hcsv⟩ := fixT_obj_of_compat hcf hsv
          have hwsv : wfJson (Json.obj svf) = true := wfFields_lookup hwff hsv
          have hszlt : sizeOf svf < sizeOf sf := by
            have := lookupF_sizeOf hsv
            simp only [Json.obj.sizeOf_spec] at this
            omega
          have hrec := mergePreserve svf tvf hwsv hcsv
          have hL2 : lookupF (mergeFields tf sf) k
              = some (mergeDeep (Json.obj tvf) (Json.obj svf)) := by
            rw [hL1 k, hsv, htvf]
            simp [isObject]
          have hstep : getPath (Json.obj (mergeFields tf sf)) (k :: ps)
              = getPath (mergeDeep (Json.obj tvf) (Json.obj svf)) ps := by
            rw [getPath_cons_obj, hL2]
          rw [hstep]
          exact hrec.2.1 ps v hget2 hvo
        · cases ps with
          | nil =>
            rw [getPath_nil] at hget2
            cases hget2
            rw [hvo] at ho
            cases ho rfl
          | cons p1 ps1 =>
            rw [getPath_cons_ne_obj (by simpa using ho) p1 ps1] at hget2
            cases hget2
  · -- default values at paths absent from the stored record are injected
    intro p v hgetT hgetS
    cases p with
    | nil =>
      rw [getPath] at hgetS
      cases hgetS
    | cons k ps =>
      rw [hmd]
      have hlkT : ∃ tv, lookupF tf k = some tv ∧ getPath tv ps = some v := by
        cases htk : lookupF tf k with
        | none =>
          rw [getPath_cons_obj, htk] at hgetT
          cases hgetT
        | some tv =>
          refine ⟨tv, rfl, ?_⟩
          rw [getPath_cons_obj, htk] at hgetT
          exact hgetT
      obtain ⟨tv, htk, hgetTv⟩ := hlkT
      cases hsv : lookupF sf k with
      | none =>
        have hL2 : lookupF (mergeFields tf sf) k = some tv := by
          rw [hL1 k, hsv]
          exact htk
        have hstep : getPath (Json.obj (mergeFields tf sf)) (k :: ps)
            = getPath tv ps := by
          rw [getPath_cons_obj, hL2]
        rw [hstep]
        exact hgetTv
      | some sv =>
        have hgetS2 : getPath sv ps = none := by
          rw [getPath_cons_obj, hsv] at hgetS
          exact hgetS
        cases ps with
        | nil =>
          rw [getPath_nil] at hgetS2
          cases hgetS2
        | cons p1 ps1 =>
          have hto : isObject tv = true := by
            by_contra hcon
            rw [getPath_cons_ne_obj (by simpa using hcon) p1 ps1] at hgetTv
            cases hgetTv
          obtain ⟨tvf, rfl⟩ := isObject_obj hto
          have hso : isObject sv = true :=
            (compatFields_lookup hcf hsv htk).1 rfl
          obtain ⟨svf, rfl⟩ := isObject_obj hso
          have hcsv : compat (Json.obj tvf) (Json.obj svf) = true :=
            (compatFields_lookup hcf hsv htk).2.2
          have hwsv : wfJson (Json.obj svf) = true := wfFields_lookup hwff hsv
          have hszlt : sizeOf svf < sizeOf sf := by
            have := lookupF_sizeOf hsv
            simp only [Json.obj.sizeOf_spec] at this
            omega
          have hrec := mergePreserve svf tvf hwsv hcsv
          have htvf : fixT (lookupF tf k) = Json.obj tvf := by
            rw [htk]
            simp [fixT, truthy]
          have hL2 : lookupF (mergeFields tf sf) k
              = some (mergeDeep (Json.obj tvf) (Json.obj svf)) := by
            rw [hL1 k, hsv, htvf]
            simp [isObject]
          have hstep : getPath (Json.obj (mergeFields tf sf)) (k :: (p1 :: ps1))
              = getPath (mergeDeep (Json.obj tvf) (Json.obj svf)) (p1 :: ps1) := by
            rw [getPath_cons_obj, hL2]
          rw [hstep]
          exact hrec.2.2 (p1 :: ps1) v hgetTv hgetS2
termination_by sizeOf sf
decreasing_by
all_goals assumption

/-- A poll oracle whose every poll throws, for the C1 counterexample. -/
def c1ErrStatus : String → RunStatus := fun _ => RunStatus.errored

/-- C1 counterexample: a tracked entry whose poll raises an error is NOT
present in the pending-run dirty set after the sweep — the `catch` block
of the sweep only logs, it never pushes the entry onto `notDoneRuns`, so
the claimed re-insertion does not happen. -/
theorem c1_counterexample :
    runSweep c1ErrStatus ["user-1|thread-1|run-1|0"] = []
      ∧ ¬ ("user-1|thread-1|run-1|0" ∈ runSweep c1ErrStatus ["user-1|thread-1|run-1|0"]) := by
  constructor
  · rfl
  · intro h
    simp [runSweep, c1ErrStatus] at h

/-- C1 (amended): in the pending-run sweep, for every tracked entry whose
poll raises an error, the sweep logs the error and continues processing
the remaining entries, but the erroring entry is dropped from the
pending-run dirty set (it is not re-inserted); the set written back
contains exactly the entries polled as still not done, in order. -/
theorem c1_sweep_drops_errored (status : String → RunStatus) (runs : List String) :
    runSweep status runs
      = runs.filter (fun run =>
          match status run with
          | RunStatus.notDone => true
          | _ => false) := by
  induction runs with
  | nil => rfl
  | cons r rest ih =>
    cases h : status r <;> simp [runSweep, h, ih, List.filter_cons]

/-- The concrete user record of the C2 scenario: minute limit 10, day
unlimited, 8 units already used this minute. -/
def c2Data : UserData :=
  { active := true, invite_code := "", stripe_customer_id := "cus_c2",
    allow_retrieval_tool := true,
    limits := [("gpt-4", { minute := some 10, day := none })],
    image_limits := [],
    used := [("gpt-4", { minute := 8, day := 8 })],
    image_used := [],
    usage_text_since_last_record := [("gpt-4", some 0)],
    usage_image_since_last_record := [],
    default_instruction := "" }

/-- C2 counterexample: with `limit={minute:10,day:null}` and
`used.minute=8`, admission of an operation with declared cost 5 is NOT
denied — `checkModelUsage` only compares the already-used amount to the
limit (`8 >= 10` is false) and never adds the declared cost, so the call
is allowed. -/
theorem c2_counterexample :
    (checkModelUsage c2Data "gpt-4" 5).map Prod.fst = some true := by decide

/-- C2 (amended): with `limit={minute:10,day:null}` and `used.minute=8`,
admission of an operation with declared cost 5 is allowed (the admission
check compares only current usage to the limit and ignores the declared
cost) and the pre-charge then raises `used.minute` to 13, overshooting
the limit; in the non-pre-charged flow, a post-hoc increment with true
cost 2 brings `used.minute` from 8 to 10. -/
theorem c2_amended :
    (checkModelUsage c2Data "gpt-4" 5).map Prod.fst = some true
  ∧ (checkModelUsage c2Data "gpt-4" 5).map (fun p => lookupA p.2.used "gpt-4")
      = some (some { minute := 13, day := 13 })
  ∧ lookupA (incrementUsage "gpt-4" 2 c2Data).used "gpt-4"
      = some { minute := 10, day := 10 } := by decide

theorem applyBillOp_flush_conserves (m : String) (subs : List (List SubItem))
    (st : BillSt) :
    1000 * (applyBillOp m st (BillOp.flush subs)).reportedTotal
        + (applyBillOp m st (BillOp.flush subs)).acc
      = 1000 * st.reportedTotal + st.acc := by
  by_cases hq : st.acc / 1000 < 1
  · simp [applyBillOp, flushStep, hq]
  · cases hit : getSubscriptionItem subs m with
    | none => simp [applyBillOp, flushStep, hq, hit]
    | some it =>
      simp only [applyBillOp, flushStep, hq, hit, if_neg, not_false_iff]
      omega

theorem applyBillOp_invariant (m : String) (ops : List BillOp) :
    ∀ st : BillSt,
      1000 * (ops.foldl (applyBillOp m) st).reportedTotal
          + (ops.foldl (applyBillOp m) st).acc
        = 1000 * st.reportedTotal + st.acc + totalInc ops := by
  induction ops with
  | nil =>
    intro st
    simp [totalInc]
  | cons op rest ih =>
    intro st
    cases op with
    | inc a =>
      simp only [List.foldl, totalInc]
      rw [ih]
      simp [applyBillOp]
      ring
    | flush subs =>
      simp only [List.foldl, totalInc]
      rw [ih]
      have h := applyBillOp_flush_conserves m subs st
      omega

/-- C3: one billing flush of an accumulator holding 2500, against a
subscription list containing a matching line, reports quantity 2 and
retains remainder 500; and across any sequence of increments and flushes
starting from 0, the conservation invariant holds: 1000 times the sum of
all reported quantities plus the current remainder equals the total
amount ever accumulated (so in particular only whole quantities are ever
reported and the remainder is never lost). -/
theorem c3_billing_conservation :
    flushStep "gpt-4" [[{ id := "si_1", lookup_key := some "gpt-4,gpt-4-1106-preview" }]] 2500
        = (some 2, 500)
  ∧ (∀ (m : String) (ops : List BillOp),
      1000 * (ops.foldl (applyBillOp m) { acc := 0, reportedTotal := 0 }).reportedTotal
          + (ops.foldl (applyBillOp m) { acc := 0, reportedTotal := 0 }).acc
        = totalInc ops) := by
  constructor
  · decide
  · intro m ops
    have h := applyBillOp_invariant m ops { acc := 0, reportedTotal := 0 }
    simpa using h

/-- An inactive user record without billing identity, whose limit object
for the model is present with both windows null — the C4 counterexample
input. -/
def c4Data : UserData :=
  { active := false, invite_code := "", stripe_customer_id := "",
    allow_retrieval_tool := true,
    limits := [("gpt-4", { minute := none, day := none })],
    image_limits := [],
    used := [("gpt-4", { minute := 0, day := 0 })],
    image_used := [],
    usage_text_since_last_record := [("gpt-4", some 0)],
    usage_image_since_last_record := [],
    default_instruction := "" }

/-- C4 counterexample: for an inactive user record with both window
limits null, the claim says remaining is null, but the code returns 0
because of the activity/billing-identity guard that runs before the
window loop. -/
theorem c4_counterexample :
    getRemainingModelUsageByData (some c4Data) "gpt-4" = some (some 0)
  ∧ getRemainingModelUsageByData (some c4Data) "gpt-4" ≠ some none := by decide

/-- C4 (amended): remaining is 0 whenever the user is inactive or has no
billing identity, and 0 when the limit object is absent; for an active
user with a billing identity, a present limit object and a present used
entry, remaining is 0 if any window has limit exactly 0, otherwise the
minimum over the windows with a non-null limit of max(0, limit - used),
and null when both windows have a null limit. -/
theorem c4_remaining_amended (d : UserData) (m : String) :
    ((d.active = false ∨ d.stripe_customer_id = "") →
      getRemainingModelUsageByData (some d) m = some (some 0))
  ∧ (d.active = true → d.stripe_customer_id ≠ "" → lookupA d.limits m = none →
      getRemainingModelUsageByData (some d) m = some (some 0))
  ∧ (∀ lim u, d.active = true → d.stripe_customer_id ≠ "" →
      lookupA d.limits m = some lim → lookupA d.used m = some u →
      getRemainingModelUsageByData (some d) m = some (
        if lim.minute = some 0 ∨ lim.day = some 0 then some 0
        else
          match lim.minute, lim.day with
          | none, none => none
          | some l, none => some (max 0 (l - u.minute))
          | none, some l => some (max 0 (l - u.day))
          | some lm, some ld =>
            some (min (max 0 (lm - u.minute)) (max 0 (ld - u.day))))) := by
  refine ⟨?_, ?_, ?_⟩
  · intro h
    rw [getRemainingModelUsageByData, if_pos h]
  · intro ha hs hl
    rw [getRemainingModelUsageByData, if_neg (by simp [ha, hs]), hl]
  · intro lim u ha hs hl hu
    obtain ⟨mi, da⟩ := lim
    rw [getRemainingModelUsageByData, if_neg (by simp [ha, hs]), hl]
    cases mi with
    | some l =>
      by_cases hl0 : l = 0
      · subst hl0
        simp
      · rw [hu]
        cases da with
        | some ld =>
          by_cases hld : ld = 0
          · subst hld
            simp [hl0]
          · simp [hl0, hld]
        | none => simp [hl0]
    | none =>
      cases da with
      | some ld =>
        by_cases hld : ld = 0
        · subst hld
          simp
        · rw [hu]
          simp [hld]
      | none => simp

/-- Concrete input for the C4 witness: both windows configured and
non-zero. -/
def c4WitnessData : UserData :=
  { active := true, invite_code := "", stripe_customer_id := "cus_c4",
    allow_retrieval_tool := true,
    limits := [("gpt-4", { minute := some 10, day := some 20 })],
    image_limits := [],
    used := [("gpt-4", { minute := 3, day := 15 })],
    image_used := [],
    usage_text_since_last_record := [("gpt-4", some 0)],
    usage_image_since_last_record := [],
    default_instruction := "" }

/-- Witness for the amended C4 theorem: min(max(0,10-3), max(0,20-15)) = 5. -/
theorem c4_witness :
    getRemainingModelUsageByData (some c4WitnessData) "gpt-4" = some (some 5) := by
  have h := (c4_remaining_amended c4WitnessData "gpt-4").2.2
      { minute := some 10, day := some 20 } { minute := 3, day := 15 }
      (by decide) (by decide) (by decide) (by decide)
  rw [h]
  decide

/-- C5: for every active user with a billing identity and a model whose
limit object is `{minute: L, day: null}` with L non-null and non-zero,
and whose used entry is present: at `used.minute = U < L` admission
allows with remaining `L - U`; at `U >= L` (the strict at-or-above
comparison, applied before any provisional amount since the check runs
with pre-charge 0) admission denies; admission also denies whenever the
limit object is absent, the user is inactive, or the user has no billing
identity. -/
theorem c5_admission_spec (d : UserData) (m : String) :
    (∀ L u, lookupA d.limits m = some { minute := some L, day := none } →
      L ≠ 0 → lookupA d.used m = some u →
      d.active = true → d.stripe_customer_id ≠ "" →
      ((u.minute < L → admission (some d) m = some (true, some (L - u.minute)))
        ∧ (L ≤ u.minute → admission (some d) m = some (false, none))))
  ∧ (d.active = true → d.stripe_customer_id ≠ "" → lookupA d.limits m = none →
      admission (some d) m = some (false, none))
  ∧ (d.active = false → admission (some d) m = some (false, none))
  ∧ (d.stripe_customer_id = "" → admission (some d) m = some (false, none)) := by
  have hcwnd : ∀ (L : Int) (u : WindowUsed),
      checkWindows { minute := some L, day := none } (some u)
        = if u.minute ≥ L then some false else some true := fun _ _ => rfl
  refine ⟨?_, ?_, ?_, ?_⟩
  · intro L u hl hL hu ha hs
    constructor
    · intro hlt
      have hcw : checkWindows { minute := some L, day := none } (some u)
          = some true := by
        rw [hcwnd, if_neg (not_le.mpr hlt)]
      have hcm : checkModelUsage d m 0 = some (true, d) := by
        simp [checkModelUsage, hl, hu, hcw]
      have hrem : getRemainingModelUsageByData (some d) m
          = some (some (L - u.minute)) := by
        simp only [getRemainingModelUsageByData]
        rw [if_neg (by simp [ha, hs])]
        simp only [hl, hu, hL, if_neg]
        have hmax : max 0 (L - u.minute) = L - u.minute := by omega
        simp [hL, hmax]
      simp only [admission]
      rw [if_neg (by simp [ha, hs])]
      simp only [hcm, hrem]
      rw [if_neg (by omega)]
    · intro hge
      have hcw : checkWindows { minute := some L, day := none } (some u)
          = some false := by
        rw [hcwnd, if_pos hge]
      have hcm : checkModelUsage d m 0 = some (false, d) := by
        simp [checkModelUsage, hl, hu, hcw]
      simp only [admission]
      rw [if_neg (by simp [ha, hs])]
      simp only [hcm]
  · intro ha hs hl
    have hcm : checkModelUsage d m 0 = some (false, d) := by
      simp [checkModelUsage, hl]
    simp only [admission]
    rw [if_neg (by simp [ha, hs])]
    simp only [hcm]
  · intro ha
    simp only [admission]
    rw [if_pos (Or.inl ha)]
  · intro hs
    simp only [admission]
    rw [if_pos (Or.inr hs)]

/-- Concrete input for the C5 witness: limit 10/minute, 4 already used. -/
def c5Data : UserData :=
  { active := true, invite_code := "", stripe_customer_id := "cus_c5",
    allow_retrieval_tool := true,
    limits := [("gpt-4", { minute := some 10, day := none })],
    image_limits := [],
    used := [("gpt-4", { minute := 4, day := 4 })],
    image_used := [],
    usage_text_since_last_record := [("gpt-4", some 0)],
    usage_image_since_last_record := [],
    default_instruction := "" }

/-- Witness for C5: admission allows with remaining 10 - 4 = 6. -/
theorem c5_witness : admission (some c5Data) "gpt-4" = some (true, some 6) := by
  have h := ((c5_admission_spec c5Data "gpt-4").1 10 { minute := 4, day := 4 }
      (by decide) (by decide) (by decide) (by decide) (by decide)).1 (by decide)
  rw [h]
  decide

/-- C6: loading a stored user record deep-merges the default skeleton
under it.  For every well-formed stored object that is shape-compatible
with the default skeleton: (1) when no record is stored the result is
exactly the structural default record; (2) every non-object value
present in the stored record is preserved unchanged at its path (never
overwritten by a default); (3) every object present in the stored record
is still an object at its path; (4) for every path present in the
default skeleton but absent in the stored record, the default value is
injected. -/
theorem c6_load_merges_defaults (now : Int) (s : List (String × Json))
    (hwf : wfJson (Json.obj s) = true)
    (hc : compat (getDefaultUserData now) (Json.obj s) = true) :
    getUserDataById now none = getDefaultUserData now
  ∧ (∀ p v, getPath (Json.obj s) p = some v → isObject v = false →
      getPath (getUserDataById now (some (Json.obj s))) p = some v)
  ∧ (∀ p v, getPath (Json.obj s) p = some v → isObject v = true →
      ∃ w, getPath (getUserDataById now (some (Json.obj s))) p = some w
        ∧ isObject w = true)
  ∧ (∀ p v, getPath (getDefaultUserData now) p = some v →
      getPath (Json.obj s) p = none →
      getPath (getUserDataById now (some (Json.obj s))) p = some v) := by
  have h := mergePreserve s (defaultUserFields now) hwf hc
  exact ⟨rfl, h.1, h.2.1, h.2.2⟩

/-- Witness for C6: merging the empty stored object over the default
skeleton keeps the default `active` value at its path. -/
theorem c6_witness :
    getPath (getUserDataById 0 (some (Json.obj []))) ["active"]
      = some (Json.bool false) := by
  have h := c6_load_merges_defaults 0 []
      (by simp [wfJson, keysNodup, wfFields])
      (by simp [getDefaultUserData, compat, compatFields])
  exact h.2.2.2 ["active"] (Json.bool false) rfl rfl

/-- C7: sequentially incrementing a record by `a` and then by `b` (for a
model present in both usage tables) yields the same record as a single
increment by `a + b`, and an increment by 0 changes nothing. -/
theorem c7_increment_additive (d : UserData) (m : String) (a b : Int)
    (u : WindowUsed) (t : Option Int)
    (hu : lookupA d.used m = some u)
    (ht : lookupA d.usage_text_since_last_record m = some t) :
    incrementUsage m b (incrementUsage m a d) = incrementUsage m (a + b) d
  ∧ incrementUsage m 0 d = d := by
  constructor
  · by_cases ha : a = 0
    · subst ha
      simp [incrementUsage]
    · by_cases hb : b = 0
      · subst hb
        simp [incrementUsage]
      · obtain ⟨ac, ic, sc, art, lim, ilim, us, ius, ut, iut, di⟩ := d
        simp only at hu ht
        cases t with
        | none =>
          by_cases hab : a + b = 0
          · have h1 : u.minute + a + b = u.minute := by omega
            have h2 : u.day + a + b = u.day := by omega
            simp only [incrementUsage, ha, hb, hab, if_neg, not_false_iff,
              if_pos, hu, ht, lookupA_setA_self, setA_setA, h1, h2]
            have heta : ({ minute := u.minute, day := u.day } : WindowUsed) = u := rfl
            rw [heta, setA_self us m u hu, setA_self ut m none ht]
          · have h1 : u.minute + a + b = u.minute + (a + b) := by omega
            have h2 : u.day + a + b = u.day + (a + b) := by omega
            simp only [incrementUsage, ha, hb, hab, if_neg, not_false_iff,
              if_pos, hu, ht, lookupA_setA_self, setA_setA, h1, h2]
        | some t0 =>
          by_cases hab : a + b = 0
          · have h1 : u.minute + a + b = u.minute := by omega
            have h2 : u.day + a + b = u.day := by omega
            have h3 : t0 + a + b = t0 := by omega
            simp only [incrementUsage, ha, hb, hab, if_neg, not_false_iff,
              if_pos, hu, ht, lookupA_setA_self, setA_setA, h1, h2, h3]
            have heta : ({ minute := u.minute, day := u.day } : WindowUsed) = u := rfl
            rw [heta, setA_self us m u hu, setA_self ut m (some t0) ht]
          · have h1 : u.minute + a + b = u.minute + (a + b) := by omega
            have h2 : u.day + a + b = u.day + (a + b) := by omega
            have h3 : t0 + a + b = t0 + (a + b) := by omega
            simp only [incrementUsage, ha, hb, hab, if_neg, not_false_iff,
              if_pos, hu, ht, lookupA_setA_self, setA_setA, h1, h2, h3]
  · simp [incrementUsage]

/-- Concrete record for the C7 witness. -/
def c7Data : UserData :=
  { active := true, invite_code := "", stripe_customer_id := "cus_c7",
    allow_retrieval_tool := true,
    limits := [("gpt-4", { minute := some 2500, day := none })],
    image_limits := [],
    used := [("gpt-4", { minute := 1, day := 2 })],
    image_used := [],
    usage_text_since_last_record := [("gpt-4", some 5)],
    usage_image_since_last_record := [],
    default_instruction := "" }

/-- Witness for C7: incrementing by 3 then 4 equals incrementing by 7,
and incrementing by 0 is the identity, on a concrete record. -/
theorem c7_witness :
    incrementUsage "gpt-4" 4 (incrementUsage "gpt-4" 3 c7Data)
        = incrementUsage "gpt-4" 7 c7Data
  ∧ incrementUsage "gpt-4" 0 c7Data = c7Data :=
  c7_increment_additive c7Data "gpt-4" 3 4 { minute := 1, day := 2 } (some 5)
    (by decide) (by decide)

/-- C8: the minute reset and the day reset never modify the billing
accumulators — both `usage_text_since_last_record` and
`usage_image_since_last_record` are identical before and after either
reset — and in the used counters only the corresponding window field is
zeroed: the minute reset maps every used entry to the same entry with
`minute := 0` (day untouched), the day reset with `day := 0` (minute
untouched). -/
theorem c8_reset_frame (d : UserData) (m : String) :
    (resetMinute d).usage_text_since_last_record = d.usage_text_since_last_record
  ∧ (resetMinute d).usage_image_since_last_record = d.usage_image_since_last_record
  ∧ (resetDay d).usage_text_since_last_record = d.usage_text_since_last_record
  ∧ (resetDay d).usage_image_since_last_record = d.usage_image_since_last_record
  ∧ lookupA (resetMinute d).used m
      = (lookupA d.used m).map (fun u => { u with minute := 0 })
  ∧ lookupA (resetMinute d).image_used m
      = (lookupA d.image_used m).map (fun u => { u with minute := 0 })
  ∧ lookupA (resetDay d).used m
      = (lookupA d.used m).map (fun u => { u with day := 0 })
  ∧ lookupA (resetDay d).image_used m
      = (lookupA d.image_used m).map (fun u => { u with day := 0 })
  ∧ (resetMinute d).limits = d.limits
  ∧ (resetMinute d).active = d.active
  ∧ (resetMinute d).stripe_customer_id = d.stripe_customer_id
  ∧ (resetDay d).limits = d.limits := by
  refine ⟨rfl, rfl, rfl, rfl, ?_, ?_, ?_, ?_, rfl, rfl, rfl, rfl⟩
  · simp only [resetMinute]
    exact lookupA_map d.used (fun u => ({ minute := 0, day := u.day } : WindowUsed)) m
  · simp only [resetMinute]
    exact lookupA_map d.image_used (fun u => ({ minute := 0, day := u.day } : WindowUsed)) m
  · simp only [resetDay]
    exact lookupA_map d.used (fun u => ({ minute := u.minute, day := 0 } : WindowUsed)) m
  · simp only [resetDay]
    exact lookupA_map d.image_used (fun u => ({ minute := u.minute, day := 0 } : WindowUsed)) m

/-- C9: enqueue of a pending run is idempotent — calling
`addTrackedRuns` twice with an identical `(user, thread, run)` tuple
(and the same provisional cost, which every call site passes as 0)
leaves exactly one matching entry in the pending-run dirty set, provided
the set did not already contain duplicates of that key (it cannot, since
`addString` is the only writer and never duplicates). -/
theorem c9_enqueue_idempotent (l : List String) (u t r : String) (usage : Int)
    (h : l.count (u ++ "|" ++ t ++ "|" ++ r ++ "|" ++ toString usage) ≤ 1) :
    (addTrackedRuns u t r usage (addTrackedRuns u t r usage l)).count
        (u ++ "|" ++ t ++ "|" ++ r ++ "|" ++ toString usage) = 1 := by
  set key := u ++ "|" ++ t ++ "|" ++ r ++ "|" ++ toString usage with hkey
  unfold addTrackedRuns addString
  rw [← hkey]
  by_cases hmem : key ∈ l
  · rw [if_pos hmem, if_pos hmem]
    have h1 : 0 < l.count key := List.count_pos_iff_mem.mpr hmem
    omega
  · rw [if_neg hmem]
    have hmem2 : key ∈ l ++ [key] := by simp
    rw [if_pos hmem2]
    have h0 : l.count key = 0 := List.count_eq_zero.mpr hmem
    simp [List.count_append, h0]

/-- Witness for C9: enqueueing the same run twice into an empty dirty
set leaves one entry. -/
theorem c9_witness :
    (addTrackedRuns "u1" "t1" "r1" 0 (addTrackedRuns "u1" "t1" "r1" 0 [])).count
        ("u1" ++ "|" ++ "t1" ++ "|" ++ "r1" ++ "|" ++ toString (0 : Int)) = 1 :=
  c9_enqueue_idempotent [] "u1" "t1" "r1" 0 (by decide)

/-- Whether a JSON value is an array (`Array.isArray`). -/
def isArr : Json → Bool
  | Json.arr _ => true
  | _ => false

/-- The request-body validations that `/api/generate` applies to
`body.content` before calling `calculateLength` (`router.ts` lines
188-189): the field must be truthy and must be an array. -/
def generateContentAccepted (content : Json) : Bool :=
  truthy content && isArr content

/-- C10: the empty array passes the presence and array-shape validations
of the generation endpoint (an empty array is truthy in JS), yet
`calculateLength` applied to it throws — `reduce` of an empty array with
no initial value — instead of returning 0: the cost-length function is
not total at the public interface. -/
theorem c10_empty_content_throws :
    generateContentAccepted (Json.arr []) = true
  ∧ calculateLength (Json.arr []) = none := by
  constructor
  · rfl
  · simp [calculateLength, calcList]
